import Mathlib

/-
  Verification of the io-guard/validate runtime structural validation library.

  The library is embedded shallowly: host (ECMAScript) values are the
  inductive `Value`; validators built by the library's combinators are the
  inductive `Validation` (a plain callable predicate, a record validator
  built by `ValidatorMap`, or a collection validator built by
  `IterableValidator`), with the invoke behaviour (`Validation.call`),
  the host `in`-operator behaviour (`Validation.hasField`) and the
  property-read behaviour (`Validation.getField`) translated from
  `src/unnamed/part_000`.

  Host numbers are modelled as integers (every numeric literal in the
  repository is an integer), with a distinguished not-a-number value `nan`.
-/

set_option autoImplicit false

namespace Guard

/-- A host value: `undefined`, `null`, a boolean, a number (an integer or
the not-a-number value), a string, a plain object (an association list of
named fields, keys unique and in declaration order), or an array. Arrays
are the iterable values of the model. -/
inductive Value where
  | undef
  | null
  | bool (b : Bool)
  | num (n : Int)
  | nan
  | str (s : String)
  | obj (fields : List (String × Value))
  | arr (elems : List Value)

/-- Host `typeof` on the embedded values. -/
def typeofVal : Value → String
  | .undef => "undefined"
  | .null => "object"
  | .bool _ => "boolean"
  | .num _ => "number"
  | .nan => "number"
  | .str _ => "string"
  | .obj _ => "object"
  | .arr _ => "object"

/-- `isNull`: `item === null`. -/
def isNull : Value → Bool
  | .null => true
  | _ => false

/-- `isUndefined`: `item === undefined`. -/
def isUndefined : Value → Bool
  | .undef => true
  | _ => false

/-- `isMissing`: `item == null` (loose equality: true exactly for `null`
and `undefined`). -/
def isMissing : Value → Bool
  | .null => true
  | .undef => true
  | _ => false

/-- `isTypeof(type)`: `typeof item === type`. -/
def isTypeof (type : String) : Value → Bool := fun item =>
  typeofVal item == type

/-- `isString = isTypeof("string")`. -/
def isString : Value → Bool := isTypeof "string"

/-- `isBoolean = isTypeof("boolean")`. -/
def isBoolean : Value → Bool := isTypeof "boolean"

/-- `isNumber = isTypeof("number")`. -/
def isNumber : Value → Bool := isTypeof "number"

/-- Host `Number.isNaN`. -/
def isNaNValue : Value → Bool
  | .nan => true
  | _ => false

/-- `isValidNumber`: `isNumber(item) && !Number.isNaN(item)`. -/
def isValidNumber : Value → Bool := fun item =>
  isNumber item && !(isNaNValue item)

/-- Host model: which embedded values carry a `Symbol.iterator` method
(arrays and strings do; no other embedded value does). -/
def hasSymbolIterator : Value → Bool
  | .arr _ => true
  | .str _ => true
  | _ => false

/-- `isIterable`: `typeof item?.[Symbol.iterator] === "function" && !isString(item)`. -/
def isIterable : Value → Bool := fun item =>
  hasSymbolIterator item && !(isString item)

/-- Host model: iterating an iterable value yields its elements in order
(string iteration yields its characters, though `isIterable` excludes
strings before any iteration happens). -/
def Value.iterElems : Value → List Value
  | .arr elems => elems
  | .str s => s.toList.map fun c => Value.str c.toString
  | _ => []

/-- Host model: a property key is an array index when it is the canonical
decimal representation of a natural number. -/
def parseIndex (s : String) : Option Nat :=
  match s.toNat? with
  | some n => if toString n = s then some n else none
  | none => none

/-- Host model of the property read `(item as T)[key]` performed by the
record validator: a declared field of an object (first binding; keys are
unique in host objects), `length` and index reads on arrays and strings,
and `undefined` everywhere else. The record validator only reads
properties after its missing-value guard, so the host's exception on
property reads of `null`/`undefined` is unreachable and modelled as
`undefined`. -/
def Value.getProp : Value → String → Value
  | .obj fields, key => (List.lookup key fields).getD Value.undef
  | .arr elems, key =>
      if key = "length" then Value.num (Int.ofNat elems.length)
      else
        match parseIndex key with
        | some i => (elems[i]?).getD Value.undef
        | none => Value.undef
  | .str s, key =>
      if key = "length" then Value.num (Int.ofNat s.length)
      else
        match parseIndex key with
        | some i =>
            match s.toList[i]? with
            | some c => Value.str c.toString
            | none => Value.undef
        | none => Value.undef
  | _, _ => Value.undef

/-- `test(check)`: `isMissing(item) ? false : check(item)`. -/
def test (check : Value → Bool) : Value → Bool := fun item =>
  if isMissing item then false else check item

/-- `unsafeTest(check)`: `check(item)` with no missing-input rejection. -/
def unsafeTest (check : Value → Bool) : Value → Bool := fun item =>
  check item

/-- `optional(check)`: `isNull(item) ? false : isUndefined(item) ? true : check(item)`. -/
def optional (check : Value → Bool) : Value → Bool := fun item =>
  if isNull item then false else if isUndefined item then true else check item

/-- `nullable(check)`: `isUndefined(item) ? false : isNull(item) ? true : check(item)`. -/
def nullable (check : Value → Bool) : Value → Bool := fun item =>
  if isUndefined item then false else if isNull item then true else check item

/-- `erratic(check)`: `isMissing(item) ? true : check(item)`. -/
def erratic (check : Value → Bool) : Value → Bool := fun item =>
  if isMissing item then true else check item

/-- `compose(...checks)`: `isMissing(item) ? false : checks.every(check => check(item))`. -/
def compose (checks : List (Value → Bool)) : Value → Bool := fun item =>
  if isMissing item then false else checks.all fun check => check item

/-- `or(...checks)`: `isMissing(item) ? false : checks.some(check => check(item))`. -/
def or (checks : List (Value → Bool)) : Value → Bool := fun item =>
  if isMissing item then false else checks.any fun check => check item

/-- `and = compose`. -/
def and : List (Value → Bool) → Value → Bool := compose

/-- Host model of `ToNumber` on strings for the integer-valued fragment:
whitespace-only strings convert to `0`, optionally signed decimal integer
strings to their value, everything else to not-a-number (`none`). -/
def strToNumber (s : String) : Option Int :=
  let t := s.trim
  if t = "" then some 0 else t.toInt?

/-- Host model of `ToNumber` as invoked by the relational comparison
operators (`none` is not-a-number): `null` converts to `0`, `undefined`
to not-a-number, booleans to `0`/`1`, numbers to themselves, strings via
`strToNumber`. `ToPrimitive` coercion of objects and arrays is modelled
as not-a-number; no claim exercises those inputs. -/
def toNumber : Value → Option Int
  | .undef => none
  | .null => some 0
  | .bool b => some (if b then 1 else 0)
  | .num n => some n
  | .nan => none
  | .str s => strToNumber s
  | .obj _ => none
  | .arr _ => none

/-- Host `<=`: both operands pass through `ToNumber`; any not-a-number
operand makes the comparison false. -/
def jsLE (a b : Value) : Bool :=
  match toNumber a, toNumber b with
  | some x, some y => decide (x ≤ y)
  | _, _ => false

/-- Host `<`: both operands pass through `ToNumber`; any not-a-number
operand makes the comparison false. -/
def jsLT (a b : Value) : Bool :=
  match toNumber a, toNumber b with
  | some x, some y => decide (x < y)
  | _, _ => false

/-- `numberBetween(min, max)`: `item => min <= item && item < max`. -/
def numberBetween (min max : Int) : Value → Bool := fun item =>
  jsLE (Value.num min) item && jsLT item (Value.num max)

/-- A validator value as built by the library: a plain callable predicate
(`fn`), the record validator returned by `ValidatorMap` over a field map
(`vmap`), or the collection validator returned by `IterableValidator` over
an element validator (`iter`). All three are callable host function values
(`ValidatorMap` and `IterableValidator` return `Proxy`s whose targets are
arrow functions). -/
inductive Validation where
  | fn (check : Value → Bool)
  | vmap (validators : List (String × Validation))
  | iter (check : Validation)

/-- `ValidatorMap(validators)` from `src/unnamed/part_000`. -/
def ValidatorMap (validators : List (String × Validation)) : Validation :=
  Validation.vmap validators

/-- `IterableValidator(check)` from `src/unnamed/part_000`. -/
def IterableValidator (check : Validation) : Validation :=
  Validation.iter check

mutual

/-- Invoking a validator. `fn check` is a plain predicate call.
`vmap validators` runs `ValidatorMap`'s `validate`: reject missing input,
then loop over the declared keys in map order, reading each property off
the input and returning `false` at the first failing field validator.
`iter check` runs `IterableValidator`'s `validate`: reject anything that
is not `isIterable`, then iterate the elements in order, returning
`false` at the first element the element validator rejects. -/
def Validation.call : Validation → Value → Bool
  | .fn check, item => check item
  | .vmap validators, item =>
      if isMissing item then false else callFields validators item
  | .iter check, item =>
      if isIterable item then callElems check (Value.iterElems item) else false
termination_by v _ => (sizeOf v, 0)

/-- The `for` loop of `ValidatorMap`'s `validate`: evaluate each field's
validator against the property read off the input, stopping with `false`
at the first failure. -/
def callFields : List (String × Validation) → Value → Bool
  | [], _ => true
  | (key, validate) :: rest, item =>
      if Validation.call validate (Value.getProp item key) then callFields rest item
      else false
termination_by l _ => (sizeOf l, 0)

/-- The `for..of` loop of `IterableValidator`'s `validate`: evaluate the
element validator against each element, stopping with `false` at the
first failure. -/
def callElems : Validation → List Value → Bool
  | _, [] => true
  | check, x :: xs =>
      if Validation.call check x then callElems check xs else false
termination_by check l => (sizeOf check, l.length)

end

/-- Host model: the property names a plain object literal inherits from
`Object.prototype`, visible to the `in` operator and to property reads
although they are not own keys. -/
def objectProtoProps : List String :=
  ["constructor", "toString", "toLocaleString", "valueOf", "hasOwnProperty",
   "isPrototypeOf", "propertyIsEnumerable", "__proto__", "__defineGetter__",
   "__defineSetter__", "__lookupGetter__", "__lookupSetter__"]

/-- Host model: the property names a bare arrow function value answers
`true` to under the `in` operator — its own `length` and `name`
properties together with those inherited from `Function.prototype` and,
through it, from `Object.prototype`. -/
def functionProps : List String :=
  ["length", "name", "apply", "bind", "call", "caller", "arguments"]
    ++ objectProtoProps

/-- The host `in` operator applied to a validator value. A plain predicate
is a bare function, so `key in check` consults the function's own and
inherited properties. The `Proxy`s built by `ValidatorMap` and
`IterableValidator` install only a `get` trap, so `in` (the `has`
internal method) falls through to the proxy target — which is again a
bare arrow function. -/
def Validation.hasField : Validation → String → Bool
  | .fn _, key => functionProps.contains key
  | .vmap _, key => functionProps.contains key
  | .iter _, key => functionProps.contains key

/-- The result of reading a property off a validator value: a stored
sub-validator, a host artifact that is not a validator (such as a bare
function's own `name` or `length`), or `undefined`. -/
inductive Lookup where
  | found (v : Validation)
  | hostValue
  | absent

/-- Reading a property off a validator value. On a plain predicate this
is an ordinary function property read (a host artifact for intrinsic
names, `undefined` otherwise). On a `ValidatorMap` proxy the `get` trap
runs `(key in validators) ? validators[key] : undefined`, where
`validators` is a plain object literal: a declared key (an own property,
which shadows the prototype) yields the stored validator, a name that is
only inherited from `Object.prototype` yields the inherited host value,
and any other name yields `undefined`. On an `IterableValidator` proxy
the `get` trap runs `(key in check) ? check[key] : undefined`, where
`key in check` is the `in` behaviour above and `check[key]` recurses. -/
def Validation.getField : Validation → String → Lookup
  | .fn _, key =>
      if functionProps.contains key then Lookup.hostValue else Lookup.absent
  | .vmap validators, key =>
      match List.lookup key validators with
      | some v => Lookup.found v
      | none =>
          if objectProtoProps.contains key then Lookup.hostValue
          else Lookup.absent
  | .iter check, key =>
      if Validation.hasField check key then Validation.getField check key
      else Lookup.absent

/-- A descriptor tree node (`ValidationTreeDescriptor`): each field is
either directly a callable leaf predicate (`isLogicalValidator`, i.e.
`typeof item === "function"` — every `Validation` is a callable value) or
a nested descriptor object. -/
inductive VTree where
  | leaf (v : Validation)
  | node (fields : List (String × VTree))

mutual

/-- `buildValidationMap(tree)` from `src/unnamed/part_000`: for each key,
a callable value is used unchanged; a nested descriptor is recursively
compiled and wrapped with `ValidatorMap`. -/
def buildValidationMap : List (String × VTree) → List (String × Validation)
  | [] => []
  | (key, t) :: rest => (key, buildEntry t) :: buildValidationMap rest

/-- The per-field branch of `buildValidationMap`'s loop body. -/
def buildEntry : VTree → Validation
  | .leaf v => v
  | .node fields => ValidatorMap (buildValidationMap fields)

end

/-- `ValidationTree(tree)`: `ValidatorMap(buildValidationMap(tree))`. -/
def ValidationTree (tree : List (String × VTree)) : Validation :=
  ValidatorMap (buildValidationMap tree)

mutual

/-- Manual compilation, following the specification's words: build each
nested descriptor into a record validator "by hand" by applying the flat
builder `ValidatorMap` to each nested descriptor's manually built field
map, using callable leaves unchanged. -/
def manualFields : List (String × VTree) → List (String × Validation)
  | [] => []
  | (key, t) :: rest => (key, manualCompile t) :: manualFields rest

/-- Manual treatment of one descriptor entry, following the
specification's words. -/
def manualCompile : VTree → Validation
  | .leaf v => v
  | .node fields => ValidatorMap (manualFields fields)

end

/-- The validator obtained by hand, per the specification: apply
`ValidatorMap` to the manually assembled field map. -/
def manualBuild (tree : List (String × VTree)) : Validation :=
  ValidatorMap (manualFields tree)

@[simp] theorem call_fn (check : Value → Bool) (item : Value) :
    (Validation.fn check).call item = check item := by
  rw [Validation.call]

@[simp] theorem call_vmap (validators : List (String × Validation)) (item : Value) :
    (Validation.vmap validators).call item =
      if isMissing item then false else callFields validators item := by
  rw [Validation.call]

@[simp] theorem call_iter (check : Validation) (item : Value) :
    (Validation.iter check).call item =
      if isIterable item then callElems check (Value.iterElems item) else false := by
  rw [Validation.call]

@[simp] theorem callFields_nil (item : Value) : callFields [] item = true := by
  rw [callFields]

@[simp] theorem callFields_cons (key : String) (v : Validation)
    (rest : List (String × Validation)) (item : Value) :
    callFields ((key, v) :: rest) item =
      if v.call (Value.getProp item key) then callFields rest item else false := by
  rw [callFields]

@[simp] theorem callElems_nil (check : Validation) : callElems check [] = true := by
  rw [callElems]

@[simp] theorem callElems_cons (check : Validation) (x : Value) (xs : List Value) :
    callElems check (x :: xs) =
      if check.call x then callElems check xs else false := by
  rw [callElems]

theorem callFields_eq_true_iff (validators : List (String × Validation)) (item : Value) :
    callFields validators item = true ↔
      ∀ kv ∈ validators, Validation.call kv.2 (Value.getProp item kv.1) = true := by
  induction validators with
  | nil => simp
  | cons hd tl ih =>
    obtain ⟨key, v⟩ := hd
    rw [callFields_cons]
    cases h : Validation.call v (Value.getProp item key) <;>
      simp [h, ih, List.forall_mem_cons]

theorem callFields_append_false (pre : List (String × Validation)) (key : String)
    (v : Validation) (post : List (String × Validation)) (item : Value)
    (hpre : ∀ kv ∈ pre, Validation.call kv.2 (Value.getProp item kv.1) = true)
    (hv : Validation.call v (Value.getProp item key) = false) :
    callFields (pre ++ (key, v) :: post) item = false := by
  induction pre with
  | nil => simp [hv]
  | cons hd tl ih =>
    obtain ⟨k0, v0⟩ := hd
    have h0 := hpre (k0, v0) (List.mem_cons_self _ _)
    rw [List.cons_append, callFields_cons]
    simp only at h0
    rw [h0, if_pos rfl]
    exact ih fun kv hkv => hpre kv (List.mem_cons_of_mem _ hkv)

theorem callElems_eq_true_iff (check : Validation) (elems : List Value) :
    callElems check elems = true ↔ ∀ x ∈ elems, check.call x = true := by
  induction elems with
  | nil => simp
  | cons x xs ih =>
    rw [callElems_cons]
    cases h : check.call x <;> simp [h, ih, List.forall_mem_cons]

theorem callElems_append_false (check : Validation) (pre : List Value) (x : Value)
    (post : List Value) (hpre : ∀ y ∈ pre, check.call y = true)
    (hx : check.call x = false) :
    callElems check (pre ++ x :: post) = false := by
  induction pre with
  | nil => simp [hx]
  | cons y ys ih =>
    have h0 := hpre y (List.mem_cons_self _ _)
    rw [List.cons_append, callElems_cons, h0, if_pos rfl]
    exact ih fun z hz => hpre z (List.mem_cons_of_mem _ hz)

/-- C1: the record validator built by `ValidatorMap` returns false on a
missing input (null or undefined); on any other input it returns true
exactly when every declared field's validator accepts the property read
off the input, and it fails at the first failing field in map order,
independent of (and without evaluating) the validators of later fields. -/
theorem c1_record_validation (validators : List (String × Validation)) (item : Value) :
    (isMissing item = true → (ValidatorMap validators).call item = false)
    ∧ (isMissing item = false →
        ((ValidatorMap validators).call item = true ↔
          ∀ kv ∈ validators, Validation.call kv.2 (Value.getProp item kv.1) = true))
    ∧ (∀ (pre : List (String × Validation)) (key : String) (v : Validation)
        (post post' : List (String × Validation)),
        (∀ kv ∈ pre, Validation.call kv.2 (Value.getProp item kv.1) = true) →
        Validation.call v (Value.getProp item key) = false →
        (ValidatorMap (pre ++ (key, v) :: post)).call item =
            (ValidatorMap (pre ++ (key, v) :: post')).call item
        ∧ (ValidatorMap (pre ++ (key, v) :: post)).call item = false) := by
  refine ⟨fun h => ?_, fun h => ?_, fun pre key v post post' hpre hv => ?_⟩
  · simp [ValidatorMap, h]
  · simp [ValidatorMap, h, callFields_eq_true_iff]
  · cases hm : isMissing item with
    | true => simp [ValidatorMap, hm]
    | false =>
      have h1 := callFields_append_false pre key v post item hpre hv
      have h2 := callFields_append_false pre key v post' item hpre hv
      simp [ValidatorMap, hm, h1, h2]

/-- C1 witness: the record validator over the single field `a : isString`
rejects `null`, accepts `{a: "x"}`, and rejects `{a: 1}` whatever a later
field's validator would say. -/
theorem c1_record_validation_witness :
    (ValidatorMap [("a", Validation.fn isString)]).call Value.null = false
    ∧ (ValidatorMap [("a", Validation.fn isString)]).call
        (Value.obj [("a", Value.str "x")]) = true
    ∧ (ValidatorMap [("a", Validation.fn isString),
        ("b", Validation.fn (fun _ => true))]).call (Value.obj [("a", Value.num 1)]) =
      (ValidatorMap [("a", Validation.fn isString),
        ("b", Validation.fn (fun _ => false))]).call (Value.obj [("a", Value.num 1)]) := by
  refine ⟨(c1_record_validation _ Value.null).1 rfl, ?_, ?_⟩
  · refine ((c1_record_validation [("a", Validation.fn isString)]
      (Value.obj [("a", Value.str "x")])).2.1 rfl).2 ?_
    intro kv hkv
    simp only [List.mem_singleton] at hkv
    subst hkv
    show (Validation.fn isString).call ((Value.obj [("a", Value.str "x")]).getProp "a") = true
    rw [call_fn]
    decide
  · exact ((c1_record_validation [] (Value.obj [("a", Value.num 1)])).2.2
      [] "a" (Validation.fn isString)
      [("b", Validation.fn (fun _ => true))] [("b", Validation.fn (fun _ => false))]
      (by intro kv hkv; cases hkv) (by rw [call_fn]; decide)).1

@[simp] theorem getField_fn (check : Value → Bool) (key : String) :
    (Validation.fn check).getField key =
      if functionProps.contains key then Lookup.hostValue else Lookup.absent := rfl

@[simp] theorem getField_vmap (validators : List (String × Validation)) (key : String) :
    (Validation.vmap validators).getField key =
      match List.lookup key validators with
      | some v => Lookup.found v
      | none =>
          if objectProtoProps.contains key then Lookup.hostValue
          else Lookup.absent := rfl

@[simp] theorem getField_iter (check : Validation) (key : String) :
    (Validation.iter check).getField key =
      if check.hasField key then check.getField key else Lookup.absent := rfl

theorem lookup_eq_some_of_mem_nodup {validators : List (String × Validation)}
    {key : String} {v : Validation}
    (hnd : (validators.map Prod.fst).Nodup) (hmem : (key, v) ∈ validators) :
    List.lookup key validators = some v := by
  induction validators with
  | nil => cases hmem
  | cons hd tl ih =>
    obtain ⟨k0, v0⟩ := hd
    simp only [List.map_cons, List.nodup_cons] at hnd
    rcases List.mem_cons.mp hmem with heq | hmem'
    · cases heq
      simp [List.lookup]
    · have hne : key ≠ k0 := by
        rintro rfl
        exact hnd.1 (List.mem_map_of_mem Prod.fst hmem')
      simp [List.lookup, beq_false_of_ne hne, ih hnd.2 hmem']

theorem lookup_eq_none_of_forall_not_mem {validators : List (String × Validation)}
    {key : String} (h : ∀ v : Validation, (key, v) ∉ validators) :
    List.lookup key validators = none := by
  induction validators with
  | nil => rfl
  | cons hd tl ih =>
    obtain ⟨k0, v0⟩ := hd
    have hne : key ≠ k0 := by
      rintro rfl
      exact h v0 (List.mem_cons_self _ _)
    have htl : List.lookup key tl = none :=
      ih fun v hv => h v (List.mem_cons_of_mem _ hv)
    simp [List.lookup, beq_false_of_ne hne, htl]

/-- C2 counterexample: lookup of the undeclared name `toString` on a
record validator does not return absent. The `key in validators` test of
the `get` trap sees the name on the field map object's prototype chain,
so the host function inherited from the object prototype is returned
instead of `undefined`. -/
theorem c2_field_lookup_counterexample :
    (ValidatorMap [("a", Validation.fn isString)]).getField "toString" ≠ Lookup.absent
    ∧ (ValidatorMap [("a", Validation.fn isString)]).getField "toString"
      = Lookup.hostValue := by
  constructor
  · rw [show (ValidatorMap [("a", Validation.fn isString)]).getField "toString"
      = Lookup.hostValue from rfl]
    simp
  · rfl

/-- C2 (amended): field lookup on a record validator built by
`ValidatorMap` mirrors the field map for every name not inherited from
the host object prototype: a declared key returns the very validator
stored under it (declared keys shadow both the callable's host-intrinsic
properties, such as `name` and `length`, and the prototype), any other
name outside the object prototype's property names returns absent, and
for such names a host artifact is never returned in place of the map's
entries or absence. A name that is only inherited from the object
prototype (such as `toString`) is instead passed through to the
inherited host value. -/
theorem c2_field_lookup (validators : List (String × Validation)) (key : String)
    (hnd : (validators.map Prod.fst).Nodup) :
    (∀ v : Validation, (key, v) ∈ validators →
        (ValidatorMap validators).getField key = Lookup.found v)
    ∧ ((∀ v : Validation, (key, v) ∉ validators) →
        objectProtoProps.contains key = false →
        (ValidatorMap validators).getField key = Lookup.absent)
    ∧ (objectProtoProps.contains key = false →
        (ValidatorMap validators).getField key ≠ Lookup.hostValue)
    ∧ ((∀ v : Validation, (key, v) ∉ validators) →
        objectProtoProps.contains key = true →
        (ValidatorMap validators).getField key = Lookup.hostValue) := by
  refine ⟨fun v hmem => ?_, fun habs hnp => ?_, fun hnp => ?_, fun habs hp => ?_⟩
  · rw [ValidatorMap, getField_vmap, lookup_eq_some_of_mem_nodup hnd hmem]
  · rw [ValidatorMap, getField_vmap, lookup_eq_none_of_forall_not_mem habs, hnp]
    simp
  · rw [ValidatorMap, getField_vmap]
    cases List.lookup key validators with
    | some v => simp
    | none => rw [hnp]; simp
  · rw [ValidatorMap, getField_vmap, lookup_eq_none_of_forall_not_mem habs, hp]
    simp

/-- C2 witness: a field literally named `name` is found in the map rather
than shadowed by the callable's own `name` property, and undeclared
`name` and `length` are absent rather than host artifacts. -/
theorem c2_field_lookup_witness :
    (ValidatorMap [("name", Validation.fn isString)]).getField "name"
      = Lookup.found (Validation.fn isString)
    ∧ (ValidatorMap [("a", Validation.fn isString)]).getField "name" = Lookup.absent
    ∧ (ValidatorMap [("a", Validation.fn isString)]).getField "length" = Lookup.absent := by
  refine ⟨?_, ?_, ?_⟩
  · exact (c2_field_lookup [("name", Validation.fn isString)] "name" (by simp)).1
      (Validation.fn isString) (List.mem_cons_self _ _)
  · exact (c2_field_lookup [("a", Validation.fn isString)] "name" (by simp)).2.1
      (by intro v hv; simp at hv) (by decide)
  · exact (c2_field_lookup [("a", Validation.fn isString)] "length" (by simp)).2.1
      (by intro v hv; simp at hv) (by decide)

mutual

theorem buildEntry_eq_manualCompile : ∀ t : VTree, buildEntry t = manualCompile t
  | .leaf v => by rw [buildEntry, manualCompile]
  | .node fields => by
      rw [buildEntry, manualCompile, buildValidationMap_eq_manualFields fields]

theorem buildValidationMap_eq_manualFields :
    ∀ l : List (String × VTree), buildValidationMap l = manualFields l
  | [] => by rw [buildValidationMap, manualFields]
  | (key, t) :: rest => by
      rw [buildValidationMap, manualFields, buildEntry_eq_manualCompile t,
        buildValidationMap_eq_manualFields rest]

end

/-- C3: the validator produced by the recursive tree compiler
`ValidationTree` is behaviorally identical to the validator produced by
manually applying `ValidatorMap` to each nested descriptor by hand: same
result on every input and same result for every field lookup (a callable
descriptor value is used unchanged, a nested descriptor is recursively
compiled and wrapped with the builder). -/
theorem c3_tree_compiler_equivalence (tree : List (String × VTree)) (item : Value)
    (key : String) :
    (ValidationTree tree).call item = (manualBuild tree).call item
    ∧ (ValidationTree tree).getField key = (manualBuild tree).getField key := by
  rw [ValidationTree, manualBuild, buildValidationMap_eq_manualFields]
  exact ⟨rfl, rfl⟩

@[simp] theorem isIterable_arr (elems : List Value) :
    isIterable (Value.arr elems) = true := rfl

@[simp] theorem isIterable_str (s : String) : isIterable (Value.str s) = false := rfl

@[simp] theorem isIterable_num (n : Int) : isIterable (Value.num n) = false := rfl

@[simp] theorem iterElems_arr (elems : List Value) :
    Value.iterElems (Value.arr elems) = elems := rfl

/-- C4: the lifted iterable validator rejects every input that fails the
iterable-detection rule (in particular any string and any bare number);
on an iterable input it accepts exactly when every element passes the
element validator (so an empty iterable passes), and it fails at the
first rejected element in iteration order, independent of (and without
consuming) the elements after it. -/
theorem c4_iterable_validation (check : Validation) (item : Value) :
    (isIterable item = false → (IterableValidator check).call item = false)
    ∧ (∀ s : String, (IterableValidator check).call (Value.str s) = false)
    ∧ (∀ n : Int, (IterableValidator check).call (Value.num n) = false)
    ∧ (∀ elems : List Value,
        ((IterableValidator check).call (Value.arr elems) = true ↔
          ∀ x ∈ elems, check.call x = true))
    ∧ ((IterableValidator check).call (Value.arr []) = true)
    ∧ (∀ (pre : List Value) (x : Value) (post post' : List Value),
        (∀ y ∈ pre, check.call y = true) → check.call x = false →
        (IterableValidator check).call (Value.arr (pre ++ x :: post)) =
            (IterableValidator check).call (Value.arr (pre ++ x :: post'))
        ∧ (IterableValidator check).call (Value.arr (pre ++ x :: post)) = false) := by
  refine ⟨fun h => ?_, fun s => ?_, fun n => ?_, fun elems => ?_, ?_,
    fun pre x post post' hpre hx => ?_⟩
  · simp [IterableValidator, h]
  · simp [IterableValidator]
  · simp [IterableValidator]
  · simp [IterableValidator, callElems_eq_true_iff]
  · simp [IterableValidator]
  · have h1 := callElems_append_false check pre x post hpre hx
    have h2 := callElems_append_false check pre x post' hpre hx
    simp [IterableValidator, h1, h2]

/-- C4 witness: over the element validator `isString`, `[]` and
`["a","b"]` pass, `["a", 1]` fails, and a bare number and a string are
rejected outright. -/
theorem c4_iterable_validation_witness :
    (IterableValidator (Validation.fn isString)).call (Value.arr []) = true
    ∧ (IterableValidator (Validation.fn isString)).call
        (Value.arr [Value.str "a", Value.str "b"]) = true
    ∧ (IterableValidator (Validation.fn isString)).call
        (Value.arr [Value.str "a", Value.num 1]) = false
    ∧ (IterableValidator (Validation.fn isString)).call (Value.num 5) = false
    ∧ (IterableValidator (Validation.fn isString)).call (Value.str "ab") = false := by
  refine ⟨(c4_iterable_validation (Validation.fn isString) Value.undef).2.2.2.2.1,
    ((c4_iterable_validation (Validation.fn isString) Value.undef).2.2.2.1
      [Value.str "a", Value.str "b"]).2 ?_,
    ((c4_iterable_validation (Validation.fn isString) Value.undef).2.2.2.2.2
      [Value.str "a"] (Value.num 1) [] [] ?_ (by rw [call_fn]; decide)).2,
    (c4_iterable_validation (Validation.fn isString) Value.undef).2.2.1 5,
    (c4_iterable_validation (Validation.fn isString) Value.undef).2.1 "ab"⟩
  · intro x hx
    rcases List.mem_cons.mp hx with h | h
    · subst h; rw [call_fn]; decide
    · rcases List.mem_singleton.mp h with rfl; rw [call_fn]; decide
  · intro y hy
    rcases List.mem_singleton.mp hy with rfl
    rw [call_fn]; decide

/-- C5: evaluation of the code at the failing input. The element
validator's field map declares `city`, and lookup on the record validator
itself resolves `city`; yet field lookup on the lifted collection
validator yields absent (`undefined`), because the `key in check` test in
the `IterableValidator` proxy's `get` trap consults the element proxy's
`has` behaviour, which is untrapped and falls through to the underlying
callable — and the callable has no `city` property. -/
theorem c5_lookup_forwarding_failing_input :
    (ValidatorMap [("city", Validation.fn isString)]).getField "city"
      = Lookup.found (Validation.fn isString)
    ∧ (IterableValidator (ValidatorMap [("city", Validation.fn isString)])).getField "city"
      = Lookup.absent := ⟨rfl, rfl⟩

/-- C6: `optional` passes `undefined` and fails `null`, `nullable` fails
`undefined` and passes `null`, `erratic` passes both, and all three defer
to the base check on every non-missing input. -/
theorem c6_missing_value_policies (check : Value → Bool) :
    optional check Value.undef = true
    ∧ optional check Value.null = false
    ∧ nullable check Value.undef = false
    ∧ nullable check Value.null = true
    ∧ erratic check Value.undef = true
    ∧ erratic check Value.null = true
    ∧ (∀ item : Value, isMissing item = false →
        optional check item = check item
        ∧ nullable check item = check item
        ∧ erratic check item = check item) := by
  refine ⟨rfl, rfl, rfl, rfl, rfl, rfl, fun item h => ?_⟩
  cases item <;> simp_all [isMissing, isNull, isUndefined, optional, nullable, erratic]

/-- C6 witness: the three policies at `undefined`, `null` and the
non-missing input `"x"` over the base check `isString`. -/
theorem c6_missing_value_policies_witness :
    optional isString Value.undef = true
    ∧ nullable isString Value.null = true
    ∧ erratic isString Value.undef = true
    ∧ optional isString (Value.str "x") = isString (Value.str "x") :=
  ⟨(c6_missing_value_policies isString).1,
    (c6_missing_value_policies isString).2.2.2.1,
    (c6_missing_value_policies isString).2.2.2.2.1,
    ((c6_missing_value_policies isString).2.2.2.2.2.2 (Value.str "x") rfl).1⟩

/-- C7: `and` and `or` reject missing input; on non-missing input `and`
accepts exactly when every check passes (so `and` of no checks accepts
every non-missing input) and `or` accepts exactly when some check passes;
`or` of no checks rejects every input. -/
theorem c7_and_or (checks : List (Value → Bool)) (item : Value) :
    (isMissing item = true → Guard.and checks item = false ∧ Guard.or checks item = false)
    ∧ (isMissing item = false →
        ((Guard.and checks item = true ↔ ∀ check ∈ checks, check item = true)
        ∧ (Guard.or checks item = true ↔ ∃ check ∈ checks, check item = true)))
    ∧ (isMissing item = false → Guard.and [] item = true)
    ∧ Guard.or [] item = false := by
  refine ⟨fun h => ?_, fun h => ?_, fun h => ?_, ?_⟩
  · simp [Guard.and, compose, Guard.or, h]
  · simp [Guard.and, compose, Guard.or, h, List.all_eq_true, List.any_eq_true]
  · simp [Guard.and, compose, h]
  · cases hm : isMissing item <;> simp [Guard.or, hm]

/-- C7 witness: the vacuous-composition law at the non-missing input `0`. -/
theorem c7_and_or_witness :
    Guard.and [] (Value.num 0) = true ∧ Guard.or [] (Value.num 0) = false :=
  ⟨(c7_and_or [] (Value.num 0)).2.2.1 rfl, (c7_and_or [] (Value.num 0)).2.2.2⟩

/-- C8: `numberBetween(min, max)` holds of a number exactly on the
half-open interval `min <= x < max`; in particular `numberBetween(1989,
2003)` accepts 1989 and 2002 and rejects 2003. -/
theorem c8_number_between (min max x : Int) :
    (numberBetween min max (Value.num x) = true ↔ min ≤ x ∧ x < max)
    ∧ numberBetween 1989 2003 (Value.num 1989) = true
    ∧ numberBetween 1989 2003 (Value.num 2002) = true
    ∧ numberBetween 1989 2003 (Value.num 2003) = false := by
  refine ⟨?_, by decide, by decide, by decide⟩
  simp [numberBetween, jsLE, jsLT, toNumber]

/-- C8 witness: the interval characterisation applied at
`numberBetween(0, 2)` and the number 1. -/
theorem c8_number_between_witness : numberBetween 0 2 (Value.num 1) = true :=
  (c8_number_between 0 2 1).1.mpr (by decide)

/-- C9: `numberBetween` performs no missing-input rejection, unlike
`test`, `and` and `or`: at `null` it compares with `null` coerced to the
number zero, so whenever `min <= 0 < max` the predicate accepts `null`. -/
theorem c9_number_between_null (min max : Int) (hmin : min ≤ 0) (hmax : 0 < max) :
    numberBetween min max Value.null = numberBetween min max (Value.num 0)
    ∧ numberBetween min max Value.null = true
    ∧ (∀ check : Value → Bool, test check Value.null = false)
    ∧ (∀ checks : List (Value → Bool),
        Guard.and checks Value.null = false ∧ Guard.or checks Value.null = false) := by
  refine ⟨rfl, ?_, fun check => rfl, fun checks => ⟨rfl, rfl⟩⟩
  simp [numberBetween, jsLE, jsLT, toNumber, hmin, hmax]

/-- C9 witness: `numberBetween(-1, 1)` accepts `null` while `test` of any
check rejects it. -/
theorem c9_number_between_null_witness :
    numberBetween (-1) 1 Value.null = true
    ∧ test isNumber Value.null = false :=
  ⟨(c9_number_between_null (-1) 1 (by decide) (by decide)).2.1,
    (c9_number_between_null (-1) 1 (by decide) (by decide)).2.2.1 isNumber⟩

/-- C10: the erratic policy is exactly the pointwise disjunction of the
optional and nullable policies. -/
theorem c10_erratic_disjunction (check : Value → Bool) (item : Value) :
    erratic check item = (optional check item || nullable check item) := by
  cases item <;> simp [erratic, optional, nullable, isMissing, isNull, isUndefined]

end Guard
